import Mathlib

/-!
Shallow embedding of the IDKG complaint sub-protocol
(`src/rs/crypto/internal/crypto_lib/threshold_sig/tecdsa/src/complaints.rs`).

The complaint protocol itself (`generate_complaints`,
`IDkgComplaintInternal::{new, verify, create_proof_assoc_data, serialize,
deserialize}` and the `TryFrom` conversion) is translated directly from the
source.  Its external collaborators (elliptic-curve primitives, the
zero-knowledge discrete-log-equivalence proof, the MEGa hybrid-encryption
decryption routines, the commitment opening check, the random oracle and the
CBOR codec) are not part of the source tree; they are modelled from the
specification, either as concrete spec-faithful functions or as components of
an abstract `ExternalOps` record over which the theorems quantify.
-/

/-- Participant index (`NodeIndex`, a `u32` in the source; no arithmetic is
ever performed on it, so it is embedded as `Nat`). -/
abbrev NodeIndex := Nat

/-- Modelled from the spec: curve tag carried by every point and scalar
("Multi-curve genericity: represent curve type as an explicit tag"). -/
inductive CurveType where
  | k256
  | p256
deriving DecidableEq, Repr

/-- Modelled from the spec: a curve-typed exponent.  The numeric value is an
abstract stand-in; the protocol code never inspects it. -/
structure EccScalar where
  curve : CurveType
  val : Nat
deriving DecidableEq, Repr

/-- Modelled from the spec: a curve-typed group element.  The numeric value is
an abstract stand-in; the protocol code never inspects it. -/
structure EccPoint where
  curve : CurveType
  val : Nat
deriving DecidableEq, Repr

/-- The error taxonomy of `ThresholdEcdsaError` restricted to the variants the
spec names (serialization, invalid-arguments, commitment-type mismatch,
invalid-complaint, proof rejection, curve/arithmetic errors). -/
inductive ThresholdEcdsaError where
  | CurveMismatchError
  | InvalidArguments (msg : String)
  | InvalidComplaint
  | InvalidProof
  | SerializationError (msg : String)
  | UnexpectedCommitmentType
deriving DecidableEq, Repr

abbrev ThresholdEcdsaResult (α : Type) := Except ThresholdEcdsaError α

/-- Modelled from the spec: scalar multiplication, a consumed curve primitive;
"operations across mismatched curve tags are errors".  The combination of the
abstract values is a placeholder for the group operation. -/
def EccPoint.scalar_mul (p : EccPoint) (s : EccScalar) : ThresholdEcdsaResult EccPoint :=
  if p.curve = s.curve then
    Except.ok ⟨p.curve, p.val * s.val⟩
  else
    Except.error ThresholdEcdsaError.CurveMismatchError

/-- Modelled from the spec: generator lookup, a consumed curve primitive.  The
value `1` is an abstract stand-in for the generator point G. -/
def EccPoint.generator_g (curve : CurveType) : ThresholdEcdsaResult EccPoint :=
  Except.ok ⟨curve, 1⟩

/-- Modelled from the spec: the receiver's hybrid-encryption private key; the
source only uses the `secret_scalar()` accessor. -/
structure MEGaPrivateKey where
  secret_scalar : EccScalar
deriving DecidableEq, Repr

/-- Modelled from the spec: the receiver's hybrid-encryption public key; the
source only uses the `public_point()` accessor. -/
structure MEGaPublicKey where
  public_point : EccPoint
deriving DecidableEq, Repr

/-- Modelled from the spec: a `Single`-variant MEGa ciphertext (ephemeral key
point plus encrypted payload). -/
structure MEGaCiphertextSingle where
  ephemeral_key : EccPoint
  ctexts : List EccScalar
deriving DecidableEq, Repr

/-- Modelled from the spec: a `Pairs`-variant MEGa ciphertext (ephemeral key
point plus encrypted payload pairs). -/
structure MEGaCiphertextPairs where
  ephemeral_key : EccPoint
  ctexts : List (EccScalar × EccScalar)
deriving DecidableEq, Repr

/-- Modelled from the spec: the two ciphertext variants, fixed at dealing
creation. -/
inductive MEGaCiphertext where
  | Single (c : MEGaCiphertextSingle)
  | Pairs (c : MEGaCiphertextPairs)
deriving DecidableEq, Repr

/-- The ephemeral key of either ciphertext variant (`ephemeral_key()` in the
source). -/
def MEGaCiphertext.ephemeral_key : MEGaCiphertext → EccPoint
  | .Single c => c.ephemeral_key
  | .Pairs c => c.ephemeral_key

/-- Modelled from the spec: the two polynomial-commitment variants (`Simple`,
`Pedersen`), each a list of commitment points. -/
inductive PolynomialCommitment where
  | Simple (points : List EccPoint)
  | Pedersen (points : List EccPoint)
deriving DecidableEq, Repr

/-- Modelled from the spec: a decrypted commitment opening, variant
`Simple(value)` or `Pedersen(value, mask)`. -/
inductive CommitmentOpening where
  | Simple (v : EccScalar)
  | Pedersen (v : EccScalar) (m : EccScalar)
deriving DecidableEq, Repr

/-- Modelled from the spec: the non-interactive ZK transcript of the
discrete-log-equivalence proof (commitment value(s) plus response
scalar(s)). -/
structure ProofOfDLogEquivalence where
  challenge : EccScalar
  response : EccScalar
deriving DecidableEq, Repr

/-- Modelled from the spec: a deterministic randomness source with label-keyed
child derivation; "same (seed, label) always yields same child seed".  The
derivation path makes `derive` deterministic and injective by construction. -/
structure Seed where
  path : List String
deriving DecidableEq, Repr

/-- `Seed::derive(label)`: deterministic, label-keyed child-seed derivation. -/
def Seed.derive (s : Seed) (label : String) : Seed :=
  ⟨s.path ++ [label]⟩

/-- One dealer's published contribution: ciphertext plus commitment (the two
fields of `IDkgDealingInternal` the complaint code reads). -/
structure IDkgDealingInternal where
  ciphertext : MEGaCiphertext
  commitment : PolynomialCommitment
deriving DecidableEq, Repr

/-- A complaint: the claimed Diffie-Hellman shared secret together with the ZK
proof of its provenance (`IDkgComplaintInternal` in the source). -/
structure IDkgComplaintInternal where
  proof : ProofOfDLogEquivalence
  shared_secret : EccPoint
deriving DecidableEq, Repr

/-- Modelled from the spec: one absorbed random-oracle field, tagged with its
name; keeping the fields structural makes the transcript encoding unambiguous
("encoded in that exact order with unambiguous length-prefixing per field"). -/
inductive RoInput where
  | bytestring (name : String) (value : List Nat)
  | u32 (name : String) (value : Nat)
  | point (name : String) (value : EccPoint)
deriving DecidableEq, Repr

/-- Modelled from the spec: mix a string into a running hash accumulator. -/
def roMixString (acc : Nat) (s : String) : Nat :=
  s.toList.foldl (fun a c => a * 257 + c.toNat + 1) (acc * 257 + 256)

/-- Modelled from the spec: mix a natural number into a running hash
accumulator. -/
def roMixNat (acc n : Nat) : Nat :=
  acc * 2 ^ 64 + n % 2 ^ 64 + 1

/-- Modelled from the spec: absorb one tagged field into the accumulator. -/
def roMixInput (acc : Nat) : RoInput → Nat
  | .bytestring name value =>
      value.foldl (fun a b => a * 257 + b % 256 + 1) (roMixString acc name * 257)
  | .u32 name value => roMixNat (roMixString acc name) value
  | .point name value =>
      roMixNat (roMixNat (roMixString acc name) (cond (value.curve = CurveType.k256) 0 1)) value.val

/-- Modelled from the spec: the random-oracle digest over a domain label and an
ordered list of absorbed fields, truncated to `len` bytes.  A deterministic
toy hash stands in for the real XOF: it is a function of exactly the domain
separator and the ordered field list. -/
def roDigest (domain : String) (inputs : List RoInput) (len : Nat) : List Nat :=
  (List.range len).map (fun i => (inputs.foldl roMixInput (roMixString 7 domain) + i * i + i) % 256)

/-- Modelled from the spec: the domain-separated random-oracle transcript
builder.  It records the domain label and the absorbed fields in order. -/
structure RandomOracle where
  domain : String
  inputs : List RoInput
deriving DecidableEq, Repr

/-- `RandomOracle::new(domain)`. -/
def RandomOracle.new (domain : String) : RandomOracle :=
  ⟨domain, []⟩

/-- `RandomOracle::add_bytestring(name, value)`. -/
def RandomOracle.add_bytestring (ro : RandomOracle) (name : String) (value : List Nat) :
    ThresholdEcdsaResult RandomOracle :=
  Except.ok ⟨ro.domain, ro.inputs ++ [RoInput.bytestring name value]⟩

/-- `RandomOracle::add_u32(name, value)`. -/
def RandomOracle.add_u32 (ro : RandomOracle) (name : String) (value : NodeIndex) :
    ThresholdEcdsaResult RandomOracle :=
  Except.ok ⟨ro.domain, ro.inputs ++ [RoInput.u32 name value]⟩

/-- `RandomOracle::add_point(name, value)`. -/
def RandomOracle.add_point (ro : RandomOracle) (name : String) (value : EccPoint) :
    ThresholdEcdsaResult RandomOracle :=
  Except.ok ⟨ro.domain, ro.inputs ++ [RoInput.point name value]⟩

/-- `RandomOracle::output_bytestring(len)`: fixed-length digest of the
absorbed transcript. -/
def RandomOracle.output_bytestring (ro : RandomOracle) (len : Nat) :
    ThresholdEcdsaResult (List Nat) :=
  Except.ok (roDigest ro.domain ro.inputs len)

/-- Modelled from the spec: the external fallible operations the complaint
protocol consumes (spec section 6, "Consumed ... specified here only as
contracts").  The theorems quantify over this record, so they hold for every
implementation of the collaborators. -/
structure ExternalOps where
  zkCreate : Seed → EccScalar → EccPoint → EccPoint → List Nat →
    ThresholdEcdsaResult ProofOfDLogEquivalence
  zkVerify : ProofOfDLogEquivalence → EccPoint → EccPoint → EccPoint → EccPoint → List Nat →
    ThresholdEcdsaResult Unit
  decrypt_and_check : MEGaCiphertext → PolynomialCommitment → List Nat → NodeIndex → NodeIndex →
    MEGaPrivateKey → MEGaPublicKey → ThresholdEcdsaResult CommitmentOpening
  decryptSingle : MEGaCiphertextSingle → List Nat → NodeIndex → NodeIndex → MEGaPublicKey →
    EccPoint → ThresholdEcdsaResult EccScalar
  decryptPairs : MEGaCiphertextPairs → List Nat → NodeIndex → NodeIndex → MEGaPublicKey →
    EccPoint → ThresholdEcdsaResult (EccScalar × EccScalar)
  check_opening : PolynomialCommitment → NodeIndex → CommitmentOpening →
    ThresholdEcdsaResult Bool

/-- `IDkgComplaintInternal::create_proof_assoc_data` (complaints.rs lines
189-203): domain-separated digest over the associated data, the receiver
(complainer) index, the dealer index and the receiver public key, in that
order. -/
def IDkgComplaintInternal.create_proof_assoc_data (associated_data : List Nat)
    (receiver_index : NodeIndex) (dealer_index : NodeIndex)
    (public_key : MEGaPublicKey) : ThresholdEcdsaResult (List Nat) :=
  let ro := RandomOracle.new "ic-crypto-tecdsa-complaint-proof-assoc-data"
  match ro.add_bytestring "associated_data" associated_data with
  | .error e => .error e
  | .ok ro =>
    match ro.add_u32 "receiver_index" receiver_index with
    | .error e => .error e
    | .ok ro =>
      match ro.add_u32 "dealer_index" dealer_index with
      | .error e => .error e
      | .ok ro =>
        match ro.add_point "receiver_public_key" public_key.public_point with
        | .error e => .error e
        | .ok ro => ro.output_bytestring 32

/-- `IDkgComplaintInternal::new` (complaints.rs lines 81-114): compute the
shared secret, build the proof associated data, create the
discrete-log-equivalence proof, and assemble the complaint. -/
def IDkgComplaintInternal.new (ops : ExternalOps) (seed : Seed)
    (dealing : IDkgDealingInternal) (dealer_index : NodeIndex)
    (receiver_index : NodeIndex) (secret_key : MEGaPrivateKey)
    (public_key : MEGaPublicKey) (associated_data : List Nat) :
    ThresholdEcdsaResult IDkgComplaintInternal :=
  match dealing.ciphertext.ephemeral_key.scalar_mul secret_key.secret_scalar with
  | .error e => .error e
  | .ok shared_secret =>
    match IDkgComplaintInternal.create_proof_assoc_data associated_data receiver_index
        dealer_index public_key with
    | .error e => .error e
    | .ok proof_assoc_data =>
      match EccPoint.generator_g secret_key.secret_scalar.curve with
      | .error e => .error e
      | .ok g =>
        match ops.zkCreate seed secret_key.secret_scalar g
            dealing.ciphertext.ephemeral_key proof_assoc_data with
        | .error e => .error e
        | .ok proof => .ok ⟨proof, shared_secret⟩

/-- `IDkgComplaintInternal::verify` (complaints.rs lines 125-187): rebuild the
proof associated data, verify the enclosed proof, then dispatch on the
ciphertext/commitment variant pair, decrypt using the proven shared secret,
and accept exactly when the decrypted opening does not match the dealing
commitment. -/
def IDkgComplaintInternal.verify (ops : ExternalOps) (self : IDkgComplaintInternal)
    (dealing : IDkgDealingInternal) (dealer_index : NodeIndex)
    (complainer_index : NodeIndex) (complainer_key : MEGaPublicKey)
    (associated_data : List Nat) : ThresholdEcdsaResult Unit :=
  match IDkgComplaintInternal.create_proof_assoc_data associated_data complainer_index
      dealer_index complainer_key with
  | .error e => .error e
  | .ok proof_assoc_data =>
    match EccPoint.generator_g self.shared_secret.curve with
    | .error e => .error e
    | .ok g =>
      match ops.zkVerify self.proof g dealing.ciphertext.ephemeral_key
          complainer_key.public_point self.shared_secret proof_assoc_data with
      | .error e => .error e
      | .ok _ =>
        let opening : ThresholdEcdsaResult CommitmentOpening :=
          match dealing.ciphertext, dealing.commitment with
          | .Single c, .Simple _ =>
            match ops.decryptSingle c associated_data dealer_index complainer_index
                complainer_key self.shared_secret with
            | .error e => .error e
            | .ok v => .ok (CommitmentOpening.Simple v)
          | .Pairs c, .Pedersen _ =>
            match ops.decryptPairs c associated_data dealer_index complainer_index
                complainer_key self.shared_secret with
            | .error e => .error e
            | .ok v => .ok (CommitmentOpening.Pedersen v.1 v.2)
          | _, _ => .error ThresholdEcdsaError.UnexpectedCommitmentType
        match opening with
        | .error e => .error e
        | .ok opening =>
          match ops.check_opening dealing.commitment complainer_index opening with
          | .error e => .error e
          | .ok true => .error ThresholdEcdsaError.InvalidComplaint
          | .ok false => .ok ()

/-- `BTreeMap::insert` on an association list kept sorted by key in strictly
ascending order. -/
def btreeInsert {α : Type} (k : NodeIndex) (v : α) :
    List (NodeIndex × α) → List (NodeIndex × α)
  | [] => [(k, v)]
  | (k', v') :: rest =>
    if k < k' then (k, v) :: (k', v') :: rest
    else if k = k' then (k, v) :: rest
    else (k', v') :: btreeInsert k v rest

/-- The seed-derivation label used for the complaint against `dealer_index`
(complaints.rs lines 47-50). -/
def complaintSeedLabel (dealer_index : NodeIndex) : String :=
  "ic-crypto-tecdsa-complaint-against-" ++ toString dealer_index

/-- The loop body of `generate_complaints` (complaints.rs lines 35-64): walk
the dealings in iteration order, try to decrypt-and-check each one, and for
each failure construct a complaint under a per-dealer derived seed,
propagating any construction error immediately. -/
def generate_complaints_go (ops : ExternalOps) (associated_data : List Nat)
    (receiver_index : NodeIndex) (secret_key : MEGaPrivateKey)
    (public_key : MEGaPublicKey) (seed : Seed)
    (acc : List (NodeIndex × IDkgComplaintInternal)) :
    List (NodeIndex × IDkgDealingInternal) →
    ThresholdEcdsaResult (List (NodeIndex × IDkgComplaintInternal))
  | [] => .ok acc
  | (dealer_index, dealing) :: rest =>
    match ops.decrypt_and_check dealing.ciphertext dealing.commitment associated_data
        dealer_index receiver_index secret_key public_key with
    | .ok _ =>
      generate_complaints_go ops associated_data receiver_index secret_key public_key
        seed acc rest
    | .error _ =>
      match IDkgComplaintInternal.new ops (seed.derive (complaintSeedLabel dealer_index))
          dealing dealer_index receiver_index secret_key public_key associated_data with
      | .error e => .error e
      | .ok complaint =>
        generate_complaints_go ops associated_data receiver_index secret_key public_key
          seed (btreeInsert dealer_index complaint acc) rest

/-- `generate_complaints` (complaints.rs lines 25-73).  The input map is
embedded as its iteration sequence, an association list in strictly ascending
key order. -/
def generate_complaints (ops : ExternalOps)
    (verified_dealings : List (NodeIndex × IDkgDealingInternal))
    (associated_data : List Nat) (receiver_index : NodeIndex)
    (secret_key : MEGaPrivateKey) (public_key : MEGaPublicKey) (seed : Seed) :
    ThresholdEcdsaResult (List (NodeIndex × IDkgComplaintInternal)) :=
  match generate_complaints_go ops associated_data receiver_index secret_key public_key
      seed [] verified_dealings with
  | .error e => .error e
  | .ok complaints =>
    if complaints.isEmpty then
      .error (ThresholdEcdsaError.InvalidArguments
        "generate_complaints should return at least one complaint")
    else
      .ok complaints

/-- Modelled from the spec: little-endian base-256 digits of a natural number
(the canonical building block of the self-describing binary encoding that
stands in for the CBOR codec). -/
def natToLEAux : Nat → Nat → List Nat
  | 0, _ => []
  | fuel + 1, n => if n = 0 then [] else n % 256 :: natToLEAux fuel (n / 256)

/-- Modelled from the spec: little-endian base-256 digits, entry point. -/
def natToLE (n : Nat) : List Nat :=
  natToLEAux n n

/-- Modelled from the spec: read back a little-endian base-256 digit list. -/
def natFromLE : List Nat → Nat
  | [] => 0
  | b :: rest => b + 256 * natFromLE rest

/-- Modelled from the spec: length-prefixed encoding of a natural number. -/
def encodeNat (n : Nat) : List Nat :=
  (natToLE n).length :: natToLE n

/-- Modelled from the spec: length-prefixed decoding of a natural number,
returning the leftover input. -/
def decodeNat : List Nat → ThresholdEcdsaResult (Nat × List Nat)
  | [] => .error (ThresholdEcdsaError.SerializationError "unexpected end of input")
  | len :: rest =>
    if len ≤ rest.length then
      .ok (natFromLE (rest.take len), rest.drop len)
    else
      .error (ThresholdEcdsaError.SerializationError "unexpected end of input")

/-- Modelled from the spec: one-byte curve tag. -/
def encodeCurve : CurveType → Nat
  | .k256 => 0
  | .p256 => 1

/-- Modelled from the spec: decode a one-byte curve tag. -/
def decodeCurve : List Nat → ThresholdEcdsaResult (CurveType × List Nat)
  | 0 :: rest => .ok (CurveType.k256, rest)
  | 1 :: rest => .ok (CurveType.p256, rest)
  | _ => .error (ThresholdEcdsaError.SerializationError "invalid curve tag")

/-- Modelled from the spec: encoding of a scalar (curve tag, then value). -/
def encodeScalar (s : EccScalar) : List Nat :=
  encodeCurve s.curve :: encodeNat s.val

/-- Modelled from the spec: decoding of a scalar. -/
def decodeScalar (bytes : List Nat) : ThresholdEcdsaResult (EccScalar × List Nat) :=
  match decodeCurve bytes with
  | .error e => .error e
  | .ok (curve, rest) =>
    match decodeNat rest with
    | .error e => .error e
    | .ok (v, rest) => .ok (⟨curve, v⟩, rest)

/-- Modelled from the spec: encoding of a point (curve tag, then value). -/
def encodePoint (p : EccPoint) : List Nat :=
  encodeCurve p.curve :: encodeNat p.val

/-- Modelled from the spec: decoding of a point. -/
def decodePoint (bytes : List Nat) : ThresholdEcdsaResult (EccPoint × List Nat) :=
  match decodeCurve bytes with
  | .error e => .error e
  | .ok (curve, rest) =>
    match decodeNat rest with
    | .error e => .error e
    | .ok (v, rest) => .ok (⟨curve, v⟩, rest)

/-- `IDkgComplaintInternal::serialize` (complaints.rs lines 14-17).  The CBOR
encoder is modelled from the spec as a compact self-describing encoding of the
proof's two scalars followed by the shared-secret point. -/
def IDkgComplaintInternal.serialize (self : IDkgComplaintInternal) :
    ThresholdEcdsaResult (List Nat) :=
  .ok (encodeScalar self.proof.challenge ++ encodeScalar self.proof.response ++
    encodePoint self.shared_secret)

/-- `IDkgComplaintInternal::deserialize` (complaints.rs lines 19-22).  The CBOR
decoder is modelled from the spec: malformed bytes yield a typed
serialization error. -/
def IDkgComplaintInternal.deserialize (bytes : List Nat) :
    ThresholdEcdsaResult IDkgComplaintInternal :=
  match decodeScalar bytes with
  | .error e => .error e
  | .ok (challenge, rest) =>
    match decodeScalar rest with
    | .error e => .error e
    | .ok (response, rest) =>
      match decodePoint rest with
      | .error e => .error e
      | .ok (shared_secret, rest) =>
        if rest.isEmpty then
          .ok ⟨⟨challenge, response⟩, shared_secret⟩
        else
          .error (ThresholdEcdsaError.SerializationError "trailing bytes")

/-- The opaque wire record `IDkgComplaint`: the source only reads its
`internal_complaint_raw` bytes. -/
structure IDkgComplaint where
  internal_complaint_raw : List Nat
deriving DecidableEq, Repr

/-- `TryFrom<&IDkgComplaint> for IDkgComplaintInternal` (complaints.rs lines
206-212): deserialize the raw bytes of the wire record. -/
def IDkgComplaintInternal.try_from (complaint : IDkgComplaint) :
    ThresholdEcdsaResult IDkgComplaintInternal :=
  IDkgComplaintInternal.deserialize complaint.internal_complaint_raw

/-- The proof-associated-data computation performed inside
`IDkgComplaintInternal::new` (complaints.rs lines 95-100). -/
def proofAssocDataInNew (associated_data : List Nat) (receiver_index : NodeIndex)
    (dealer_index : NodeIndex) (public_key : MEGaPublicKey) :
    ThresholdEcdsaResult (List Nat) :=
  IDkgComplaintInternal.create_proof_assoc_data associated_data receiver_index
    dealer_index public_key

/-- The proof-associated-data computation performed inside
`IDkgComplaintInternal::verify` (complaints.rs lines 134-139). -/
def proofAssocDataInVerify (associated_data : List Nat) (complainer_index : NodeIndex)
    (dealer_index : NodeIndex) (complainer_key : MEGaPublicKey) :
    ThresholdEcdsaResult (List Nat) :=
  IDkgComplaintInternal.create_proof_assoc_data associated_data complainer_index
    dealer_index complainer_key

/-- The matching ciphertext/commitment variant pairs of the dispatch in
`IDkgComplaintInternal::verify` (complaints.rs lines 150-174): `Single` with
`Simple`, `Pairs` with `Pedersen`. -/
def ciphertextCommitmentMatch : MEGaCiphertext → PolynomialCommitment → Bool
  | .Single _, .Simple _ => true
  | .Pairs _, .Pedersen _ => true
  | _, _ => false

/-- A concrete root seed used in the concrete instantiations below. -/
def seed0 : Seed := ⟨[]⟩

/-- A concrete sample scalar. -/
def sScalar : EccScalar := ⟨CurveType.k256, 3⟩

/-- A concrete sample ephemeral key point. -/
def ephPoint : EccPoint := ⟨CurveType.k256, 5⟩

/-- A concrete sample ZK proof transcript. -/
def sampleProofVal : ProofOfDLogEquivalence := ⟨⟨CurveType.k256, 7⟩, ⟨CurveType.k256, 9⟩⟩

/-- A concrete `Single`-variant ciphertext. -/
def sampleSingle : MEGaCiphertextSingle := ⟨ephPoint, []⟩

/-- A concrete `Pairs`-variant ciphertext. -/
def samplePairs : MEGaCiphertextPairs := ⟨ephPoint, []⟩

/-- A concrete dealing with the matching pair `Single`/`Simple`. -/
def dealingSS : IDkgDealingInternal := ⟨.Single sampleSingle, .Simple []⟩

/-- A concrete dealing with the mismatched pair `Single`/`Pedersen`. -/
def dealingSP : IDkgDealingInternal := ⟨.Single sampleSingle, .Pedersen []⟩

/-- A concrete receiver private key on the same curve as `ephPoint`. -/
def sampleSk : MEGaPrivateKey := ⟨sScalar⟩

/-- A concrete receiver private key on the other curve (its scalar cannot be
multiplied with `ephPoint`). -/
def sampleSkP256 : MEGaPrivateKey := ⟨⟨CurveType.p256, 3⟩⟩

/-- A concrete receiver public key. -/
def samplePk : MEGaPublicKey := ⟨⟨CurveType.k256, 11⟩⟩

/-- A concrete complaint value. -/
def sampleComplaint : IDkgComplaintInternal := ⟨sampleProofVal, ⟨CurveType.k256, 15⟩⟩

/-- A concrete decrypted-opening scalar. -/
def openingV : EccScalar := ⟨CurveType.k256, 2⟩

/-- A concrete implementation of the external operations: proof creation and
verification succeed, every dealing fails its decrypt-and-check, decryption
from a shared secret succeeds, and the opening check reports a mismatch. -/
def opsBase : ExternalOps :=
  ⟨fun _ _ _ _ _ => .ok sampleProofVal,
   fun _ _ _ _ _ _ => .ok (),
   fun _ _ _ _ _ _ _ => .error ThresholdEcdsaError.InvalidComplaint,
   fun _ _ _ _ _ _ => .ok openingV,
   fun _ _ _ _ _ _ => .ok (openingV, openingV),
   fun _ _ _ => .ok false⟩

/-- Like `opsBase` but ZK proof verification rejects. -/
def opsVerifyFail : ExternalOps :=
  ⟨opsBase.zkCreate,
   fun _ _ _ _ _ _ => .error ThresholdEcdsaError.InvalidProof,
   opsBase.decrypt_and_check,
   opsBase.decryptSingle,
   opsBase.decryptPairs,
   opsBase.check_opening⟩

/-- Like `opsBase` but every dealing passes its decrypt-and-check. -/
def opsDecryptOk : ExternalOps :=
  ⟨opsBase.zkCreate,
   opsBase.zkVerify,
   fun _ _ _ _ _ _ _ => .ok (CommitmentOpening.Simple openingV),
   opsBase.decryptSingle,
   opsBase.decryptPairs,
   opsBase.check_opening⟩

/-- Like `opsBase` but the opening check reports that the opening satisfies
the commitment. -/
def opsCheckTrue : ExternalOps :=
  ⟨opsBase.zkCreate,
   opsBase.zkVerify,
   opsBase.decrypt_and_check,
   opsBase.decryptSingle,
   opsBase.decryptPairs,
   fun _ _ _ => .ok true⟩

/-- The digest value `create_proof_assoc_data` produces, as an explicit
term (used to instantiate the theorems at concrete inputs). -/
def samplePad (associated_data : List Nat) (receiver_index : NodeIndex)
    (dealer_index : NodeIndex) (public_key : MEGaPublicKey) : List Nat :=
  roDigest "ic-crypto-tecdsa-complaint-proof-assoc-data"
    [RoInput.bytestring "associated_data" associated_data,
     RoInput.u32 "receiver_index" receiver_index,
     RoInput.u32 "dealer_index" dealer_index,
     RoInput.point "receiver_public_key" public_key.public_point] 32

/-- Claim C1: in `IDkgComplaintInternal::verify` the enclosed ZK proof is
verified (against the generator, the dealing's ephemeral key, the complainer
key, the complaint's shared secret and the rebuilt transcript digest) before
any decryption or commitment-opening check: whenever proof verification
fails with `e`, `verify` returns exactly `e`, for every behavior of the
remaining external operations (`ops2` ranges over all records that agree with
`ops` on proof verification but are arbitrary on `decrypt_from_shared_secret`
and `check_opening`), so those operations are never invoked. -/
theorem claim_C1_proof_verified_first (ops ops2 : ExternalOps)
    (self : IDkgComplaintInternal) (dealing : IDkgDealingInternal)
    (dealer_index complainer_index : NodeIndex) (complainer_key : MEGaPublicKey)
    (associated_data : List Nat) (pad : List Nat) (g : EccPoint)
    (e : ThresholdEcdsaError)
    (hagree : ops2.zkVerify = ops.zkVerify)
    (hpad : IDkgComplaintInternal.create_proof_assoc_data associated_data
      complainer_index dealer_index complainer_key = .ok pad)
    (hg : EccPoint.generator_g self.shared_secret.curve = .ok g)
    (hzk : ops.zkVerify self.proof g dealing.ciphertext.ephemeral_key
      complainer_key.public_point self.shared_secret pad = .error e) :
    IDkgComplaintInternal.verify ops2 self dealing dealer_index complainer_index
      complainer_key associated_data = .error e := by
  unfold IDkgComplaintInternal.verify
  rw [hpad]
  simp only
  rw [hg]
  simp only
  rw [hagree, hzk]

/-- Concrete instantiation of claim C1: with an operations record whose proof
verification rejects, `verify` returns the proof-verification error. -/
theorem claim_C1_witness :
    IDkgComplaintInternal.verify opsVerifyFail sampleComplaint dealingSS 1 2
      samplePk [] = .error ThresholdEcdsaError.InvalidProof :=
  claim_C1_proof_verified_first opsVerifyFail opsVerifyFail sampleComplaint
    dealingSS 1 2 samplePk [] (samplePad [] 2 1 samplePk) ⟨CurveType.k256, 1⟩
    ThresholdEcdsaError.InvalidProof rfl rfl rfl rfl

/-- Claim C5: for every complaint whose proof verifies, if the dealing's
ciphertext variant and commitment variant do not form a matching pair
(`Single` with `Simple`, or `Pairs` with `Pedersen`), `verify` returns the
unexpected-commitment-type error, for every dealer and complainer index and
for every behavior of `decrypt_from_shared_secret` (`ops2` agrees with `ops`
only on proof verification), so decryption is never invoked. -/
theorem claim_C5_variant_mismatch (ops ops2 : ExternalOps)
    (self : IDkgComplaintInternal) (dealing : IDkgDealingInternal)
    (dealer_index complainer_index : NodeIndex) (complainer_key : MEGaPublicKey)
    (associated_data : List Nat) (pad : List Nat) (g : EccPoint)
    (hagree : ops2.zkVerify = ops.zkVerify)
    (hpad : IDkgComplaintInternal.create_proof_assoc_data associated_data
      complainer_index dealer_index complainer_key = .ok pad)
    (hg : EccPoint.generator_g self.shared_secret.curve = .ok g)
    (hzk : ops.zkVerify self.proof g dealing.ciphertext.ephemeral_key
      complainer_key.public_point self.shared_secret pad = .ok ())
    (hmm : ciphertextCommitmentMatch dealing.ciphertext dealing.commitment = false) :
    IDkgComplaintInternal.verify ops2 self dealing dealer_index complainer_index
      complainer_key associated_data =
      .error ThresholdEcdsaError.UnexpectedCommitmentType := by
  obtain ⟨ct, cm⟩ := dealing
  unfold IDkgComplaintInternal.verify
  rw [hpad]
  simp only
  rw [hg]
  simp only
  rw [hagree, hzk]
  simp only
  cases ct <;> cases cm <;> simp_all [ciphertextCommitmentMatch]

/-- Concrete instantiation of claim C5: a `Single`/`Pedersen` dealing is
rejected with the unexpected-commitment-type error. -/
theorem claim_C5_witness :
    IDkgComplaintInternal.verify opsBase sampleComplaint dealingSP 1 2 samplePk []
      = .error ThresholdEcdsaError.UnexpectedCommitmentType :=
  claim_C5_variant_mismatch opsBase opsBase sampleComplaint dealingSP 1 2
    samplePk [] (samplePad [] 2 1 samplePk) ⟨CurveType.k256, 1⟩ rfl rfl rfl rfl rfl

/-- Claim C6: for every complaint whose proof verifies and whose dealing
variants match, after the ciphertext is decrypted from the shared secret into
an opening, `verify` returns the invalid-complaint error when `check_opening`
reports that the opening satisfies the commitment, and returns success when
it reports that it does not (stated for the `Single`/`Simple` and the
`Pairs`/`Pedersen` case). -/
theorem claim_C6_check_opening_decides (ops : ExternalOps)
    (self : IDkgComplaintInternal) (dealing : IDkgDealingInternal)
    (dealer_index complainer_index : NodeIndex) (complainer_key : MEGaPublicKey)
    (associated_data : List Nat) (pad : List Nat) (g : EccPoint) (b : Bool)
    (hpad : IDkgComplaintInternal.create_proof_assoc_data associated_data
      complainer_index dealer_index complainer_key = .ok pad)
    (hg : EccPoint.generator_g self.shared_secret.curve = .ok g)
    (hzk : ops.zkVerify self.proof g dealing.ciphertext.ephemeral_key
      complainer_key.public_point self.shared_secret pad = .ok ()) :
    (∀ c pts v, dealing.ciphertext = .Single c → dealing.commitment = .Simple pts →
      ops.decryptSingle c associated_data dealer_index complainer_index
        complainer_key self.shared_secret = .ok v →
      ops.check_opening dealing.commitment complainer_index
        (CommitmentOpening.Simple v) = .ok b →
      IDkgComplaintInternal.verify ops self dealing dealer_index complainer_index
        complainer_key associated_data =
        cond b (.error ThresholdEcdsaError.InvalidComplaint) (.ok ())) ∧
    (∀ c pts v, dealing.ciphertext = .Pairs c → dealing.commitment = .Pedersen pts →
      ops.decryptPairs c associated_data dealer_index complainer_index
        complainer_key self.shared_secret = .ok v →
      ops.check_opening dealing.commitment complainer_index
        (CommitmentOpening.Pedersen v.1 v.2) = .ok b →
      IDkgComplaintInternal.verify ops self dealing dealer_index complainer_index
        complainer_key associated_data =
        cond b (.error ThresholdEcdsaError.InvalidComplaint) (.ok ())) := by
  constructor <;>
    · intro c pts v hct hcm hdec hch
      rw [hcm] at hch
      unfold IDkgComplaintInternal.verify
      rw [hpad]
      simp only
      rw [hg]
      simp only
      rw [hzk]
      simp only
      rw [hct, hcm]
      simp only
      rw [hdec]
      simp only
      rw [hch]
      cases b <;> simp

/-- Concrete instantiation of claim C6: with a matching `Single`/`Simple`
dealing, a verifying proof and an opening check reporting a mismatch,
`verify` accepts the complaint. -/
theorem claim_C6_witness :
    IDkgComplaintInternal.verify opsBase sampleComplaint dealingSS 1 2 samplePk []
      = .ok () :=
  (claim_C6_check_opening_decides opsBase sampleComplaint dealingSS 1 2 samplePk []
    (samplePad [] 2 1 samplePk) ⟨CurveType.k256, 1⟩ false rfl rfl rfl).1
    sampleSingle [] openingV rfl rfl rfl rfl

/-- Claim C4: a complaint returned by `IDkgComplaintInternal::new` carries as
`shared_secret` the dealing ciphertext's ephemeral key scalar-multiplied by
the receiver's secret scalar, and as `proof` the discrete-log-equivalence
proof created from the supplied seed over the pair (curve generator,
ephemeral key) with the transcript digest of (associated data, receiver
index, dealer index, public key) as associated data. -/
theorem claim_C4_new_builds_complaint (ops : ExternalOps) (seed : Seed)
    (dealing : IDkgDealingInternal) (dealer_index receiver_index : NodeIndex)
    (secret_key : MEGaPrivateKey) (public_key : MEGaPublicKey)
    (associated_data : List Nat) (c : IDkgComplaintInternal)
    (h : IDkgComplaintInternal.new ops seed dealing dealer_index receiver_index
      secret_key public_key associated_data = .ok c) :
    dealing.ciphertext.ephemeral_key.scalar_mul secret_key.secret_scalar =
      .ok c.shared_secret ∧
    ∃ pad g,
      IDkgComplaintInternal.create_proof_assoc_data associated_data receiver_index
        dealer_index public_key = .ok pad ∧
      EccPoint.generator_g secret_key.secret_scalar.curve = .ok g ∧
      ops.zkCreate seed secret_key.secret_scalar g dealing.ciphertext.ephemeral_key
        pad = .ok c.proof := by
  unfold IDkgComplaintInternal.new at h
  split at h
  · exact Except.noConfusion h
  · rename_i ss hss
    split at h
    · exact Except.noConfusion h
    · rename_i pad hpad
      split at h
      · exact Except.noConfusion h
      · rename_i g hg
        split at h
        · exact Except.noConfusion h
        · rename_i pf hzk
          injection h with h
          subst h
          exact ⟨hss, pad, g, hpad, hg, hzk⟩

/-- Concrete instantiation of claim C4: the shared secret of a freshly built
complaint is the scalar multiple of the ephemeral key by the secret scalar. -/
theorem claim_C4_witness :
    EccPoint.scalar_mul dealingSS.ciphertext.ephemeral_key sampleSk.secret_scalar
      = .ok sampleComplaint.shared_secret :=
  (claim_C4_new_builds_complaint opsBase seed0 dealingSS 1 2 sampleSk samplePk []
    sampleComplaint rfl).1

/-- Claim C10: `IDkgComplaintInternal::new` never decrypts the ciphertext and
never checks the dealing's commitment: its result is unchanged when the
dealing's commitment and all decryption/opening-check operations are replaced
arbitrarily (`ops2` agrees with `ops` only on proof creation), and whenever
the ephemeral key and the secret scalar have the same curve type and proof
creation succeeds, `new` returns a complaint — regardless of whether the
dealing's true opening matches its commitment; such a dishonest complaint is
rejected only later, by `verify`. -/
theorem claim_C10_new_independent_of_opening (ops ops2 : ExternalOps) (seed : Seed)
    (dealing : IDkgDealingInternal) (commitment2 : PolynomialCommitment)
    (dealer_index receiver_index : NodeIndex) (secret_key : MEGaPrivateKey)
    (public_key : MEGaPublicKey) (associated_data : List Nat)
    (pad : List Nat) (g : EccPoint) (pf : ProofOfDLogEquivalence)
    (hagree : ops2.zkCreate = ops.zkCreate)
    (hcurve : dealing.ciphertext.ephemeral_key.curve = secret_key.secret_scalar.curve)
    (hpad : IDkgComplaintInternal.create_proof_assoc_data associated_data
      receiver_index dealer_index public_key = .ok pad)
    (hg : EccPoint.generator_g secret_key.secret_scalar.curve = .ok g)
    (hzk : ops.zkCreate seed secret_key.secret_scalar g
      dealing.ciphertext.ephemeral_key pad = .ok pf) :
    (IDkgComplaintInternal.new ops2 seed ⟨dealing.ciphertext, commitment2⟩
        dealer_index receiver_index secret_key public_key associated_data =
      IDkgComplaintInternal.new ops seed dealing dealer_index receiver_index
        secret_key public_key associated_data) ∧
    ∃ ss, dealing.ciphertext.ephemeral_key.scalar_mul secret_key.secret_scalar =
        .ok ss ∧
      IDkgComplaintInternal.new ops seed dealing dealer_index receiver_index
        secret_key public_key associated_data = .ok ⟨pf, ss⟩ := by
  have hss : dealing.ciphertext.ephemeral_key.scalar_mul secret_key.secret_scalar =
      .ok ⟨dealing.ciphertext.ephemeral_key.curve,
        dealing.ciphertext.ephemeral_key.val * secret_key.secret_scalar.val⟩ := by
    unfold EccPoint.scalar_mul
    rw [if_pos hcurve]
  constructor
  · unfold IDkgComplaintInternal.new
    simp only [hagree]
  · refine ⟨_, hss, ?_⟩
    unfold IDkgComplaintInternal.new
    rw [hss]
    simp only
    rw [hpad]
    simp only
    rw [hg]
    simp only
    rw [hzk]

/-- Concrete instantiation of claim C10: replacing the commitment and all
decryption/opening-check operations leaves the constructed complaint
unchanged. -/
theorem claim_C10_witness :
    IDkgComplaintInternal.new opsDecryptOk seed0
      ⟨dealingSS.ciphertext, PolynomialCommitment.Pedersen []⟩ 1 2 sampleSk
      samplePk [] =
    IDkgComplaintInternal.new opsBase seed0 dealingSS 1 2 sampleSk samplePk [] :=
  (claim_C10_new_independent_of_opening opsBase opsDecryptOk seed0 dealingSS
    (PolynomialCommitment.Pedersen []) 1 2 sampleSk samplePk []
    (samplePad [] 2 1 samplePk) ⟨CurveType.k256, 1⟩ sampleProofVal
    rfl rfl rfl rfl rfl).1

/-- Claim C7: the transcript digest used as the proof's associated data is the
fixed-length 32-byte output of a random oracle keyed by the protocol domain
label, absorbing exactly the fields (associated data bytes,
receiver/complainer index, dealer index, receiver public key point) in that
order, and creation (`new`, complaints.rs lines 95-100) and verification
(`verify`, complaints.rs lines 134-139) build this digest with the identical
procedure given corresponding arguments. -/
theorem claim_C7_assoc_data_digest :
    (∀ (associated_data : List Nat) (receiver_index dealer_index : NodeIndex)
        (public_key : MEGaPublicKey),
      IDkgComplaintInternal.create_proof_assoc_data associated_data receiver_index
          dealer_index public_key =
        .ok (roDigest "ic-crypto-tecdsa-complaint-proof-assoc-data"
          [RoInput.bytestring "associated_data" associated_data,
           RoInput.u32 "receiver_index" receiver_index,
           RoInput.u32 "dealer_index" dealer_index,
           RoInput.point "receiver_public_key" public_key.public_point] 32)) ∧
    (∀ (domain : String) (inputs : List RoInput),
      (roDigest domain inputs 32).length = 32) ∧
    (∀ (associated_data : List Nat) (idx jdx : NodeIndex) (key : MEGaPublicKey),
      proofAssocDataInNew associated_data idx jdx key =
        proofAssocDataInVerify associated_data idx jdx key) := by
  refine ⟨fun ad r d pk => rfl, fun domain inputs => ?_, fun ad i j k => rfl⟩
  simp [roDigest]

theorem natFromLE_natToLEAux (fuel : Nat) :
    ∀ n, n ≤ fuel → natFromLE (natToLEAux fuel n) = n := by
  induction fuel with
  | zero =>
    intro n hn
    interval_cases n
    rfl
  | succ fuel ih =>
    intro n hn
    unfold natToLEAux
    by_cases h0 : n = 0
    · simp [h0, natFromLE]
    · have hdiv : n / 256 ≤ fuel := by omega
      simp only [h0, if_false, natFromLE, ih (n / 256) hdiv]
      omega

theorem natFromLE_natToLE (n : Nat) : natFromLE (natToLE n) = n :=
  natFromLE_natToLEAux n n (Nat.le_refl n)

theorem decodeNat_encodeNat (n : Nat) (rest : List Nat) :
    decodeNat (encodeNat n ++ rest) = .ok (n, rest) := by
  simp only [encodeNat, List.cons_append, decodeNat]
  rw [if_pos (by simp)]
  rw [List.take_left, List.drop_left, natFromLE_natToLE]

theorem decodeCurve_encodeCurve (c : CurveType) (rest : List Nat) :
    decodeCurve (encodeCurve c :: rest) = .ok (c, rest) := by
  cases c <;> rfl

theorem decodeScalar_encodeScalar (s : EccScalar) (rest : List Nat) :
    decodeScalar (encodeScalar s ++ rest) = .ok (s, rest) := by
  obtain ⟨cu, v⟩ := s
  simp only [encodeScalar, List.cons_append, decodeScalar, decodeCurve_encodeCurve,
    decodeNat_encodeNat]

theorem decodePoint_encodePoint (p : EccPoint) (rest : List Nat) :
    decodePoint (encodePoint p ++ rest) = .ok (p, rest) := by
  obtain ⟨cu, v⟩ := p
  simp only [encodePoint, List.cons_append, decodePoint, decodeCurve_encodeCurve,
    decodeNat_encodeNat]

theorem decodeCurve_shape (bytes : List Nat) :
    (∃ r, decodeCurve bytes = .ok r) ∨
    ∃ msg, decodeCurve bytes = .error (ThresholdEcdsaError.SerializationError msg) := by
  rcases bytes with _ | ⟨b, rest⟩
  · exact .inr ⟨_, rfl⟩
  · rcases b with _ | b
    · exact .inl ⟨_, rfl⟩
    · rcases b with _ | b
      · exact .inl ⟨_, rfl⟩
      · exact .inr ⟨_, rfl⟩

theorem decodeNat_shape (bytes : List Nat) :
    (∃ r, decodeNat bytes = .ok r) ∨
    ∃ msg, decodeNat bytes = .error (ThresholdEcdsaError.SerializationError msg) := by
  rcases bytes with _ | ⟨len, rest⟩
  · exact .inr ⟨_, rfl⟩
  · by_cases h : len ≤ rest.length
    · exact .inl ⟨_, by unfold decodeNat; simp only; rw [if_pos h]⟩
    · exact .inr ⟨_, by unfold decodeNat; simp only; rw [if_neg h]⟩

theorem decodeScalar_shape (bytes : List Nat) :
    (∃ r, decodeScalar bytes = .ok r) ∨
    ∃ msg, decodeScalar bytes = .error (ThresholdEcdsaError.SerializationError msg) := by
  unfold decodeScalar
  rcases decodeCurve_shape bytes with ⟨⟨cu, rest⟩, h⟩ | ⟨msg, h⟩
  · rw [h]
    simp only
    rcases decodeNat_shape rest with ⟨⟨v, rest2⟩, h2⟩ | ⟨msg, h2⟩
    · rw [h2]
      exact .inl ⟨_, rfl⟩
    · rw [h2]
      exact .inr ⟨msg, rfl⟩
  · rw [h]
    exact .inr ⟨msg, rfl⟩

theorem decodePoint_shape (bytes : List Nat) :
    (∃ r, decodePoint bytes = .ok r) ∨
    ∃ msg, decodePoint bytes = .error (ThresholdEcdsaError.SerializationError msg) := by
  unfold decodePoint
  rcases decodeCurve_shape bytes with ⟨⟨cu, rest⟩, h⟩ | ⟨msg, h⟩
  · rw [h]
    simp only
    rcases decodeNat_shape rest with ⟨⟨v, rest2⟩, h2⟩ | ⟨msg, h2⟩
    · rw [h2]
      exact .inl ⟨_, rfl⟩
    · rw [h2]
      exact .inr ⟨msg, rfl⟩
  · rw [h]
    exact .inr ⟨msg, rfl⟩

/-- Claim C8: `deserialize` applied to the output of `serialize` returns an
equal complaint; on every byte string `deserialize` either succeeds or
returns a typed serialization error (never any other failure); and the
`TryFrom` conversion from the opaque wire record is exactly deserialization
of the raw bytes, surfacing the same error. -/
theorem claim_C8_serialization_roundtrip :
    (∀ (c : IDkgComplaintInternal) (bytes : List Nat),
      c.serialize = .ok bytes → IDkgComplaintInternal.deserialize bytes = .ok c) ∧
    (∀ bytes : List Nat,
      (∃ c, IDkgComplaintInternal.deserialize bytes = .ok c) ∨
      ∃ msg, IDkgComplaintInternal.deserialize bytes =
        .error (ThresholdEcdsaError.SerializationError msg)) ∧
    (∀ w : IDkgComplaint,
      IDkgComplaintInternal.try_from w =
        IDkgComplaintInternal.deserialize w.internal_complaint_raw) := by
  refine ⟨?_, ?_, fun w => rfl⟩
  · intro c bytes h
    obtain ⟨⟨ch, resp⟩, ss⟩ := c
    unfold IDkgComplaintInternal.serialize at h
    injection h with h
    subst h
    unfold IDkgComplaintInternal.deserialize
    rw [List.append_assoc, decodeScalar_encodeScalar]
    simp only
    rw [decodeScalar_encodeScalar]
    simp only
    rw [← List.append_nil (encodePoint ss), decodePoint_encodePoint]
    simp only
    rfl
  · intro bytes
    unfold IDkgComplaintInternal.deserialize
    rcases decodeScalar_shape bytes with ⟨⟨ch, rest⟩, h⟩ | ⟨msg, h⟩
    · rw [h]
      simp only
      rcases decodeScalar_shape rest with ⟨⟨resp, rest2⟩, h2⟩ | ⟨msg, h2⟩
      · rw [h2]
        simp only
        rcases decodePoint_shape rest2 with ⟨⟨ss, rest3⟩, h3⟩ | ⟨msg, h3⟩
        · rw [h3]
          simp only
          by_cases hempty : rest3.isEmpty
          · rw [if_pos hempty]
            exact .inl ⟨_, rfl⟩
          · rw [if_neg hempty]
            exact .inr ⟨_, rfl⟩
        · rw [h3]
          exact .inr ⟨msg, rfl⟩
      · rw [h2]
        exact .inr ⟨msg, rfl⟩
    · rw [h]
      exact .inr ⟨msg, rfl⟩

/-- Concrete instantiation of claim C8: deserializing the nine-byte encoding
of the sample complaint returns that complaint. -/
theorem claim_C8_witness :
    IDkgComplaintInternal.deserialize [0, 1, 7, 0, 1, 9, 0, 1, 15] =
      .ok sampleComplaint :=
  claim_C8_serialization_roundtrip.1 sampleComplaint [0, 1, 7, 0, 1, 9, 0, 1, 15] rfl

theorem btreeInsert_append {α : Type} (k : NodeIndex) (v : α) :
    ∀ acc : List (NodeIndex × α), (∀ p ∈ acc, p.1 < k) →
      btreeInsert k v acc = acc ++ [(k, v)] := by
  intro acc
  induction acc with
  | nil => intro _; rfl
  | cons hd tl ih =>
    intro h
    obtain ⟨k', v'⟩ := hd
    have hk : k' < k := h (k', v') (by simp)
    unfold btreeInsert
    rw [if_neg (Nat.lt_asymm hk), if_neg (fun he : k = k' => Nat.lt_irrefl k' (he ▸ hk)),
      List.cons_append]
    exact congrArg _ (ih fun p hp => h p (by simp [hp]))

theorem generate_complaints_go_spec (ops : ExternalOps) (associated_data : List Nat)
    (receiver_index : NodeIndex) (secret_key : MEGaPrivateKey)
    (public_key : MEGaPublicKey) (seed : Seed) :
    ∀ (l : List (NodeIndex × IDkgDealingInternal))
      (acc res : List (NodeIndex × IDkgComplaintInternal)),
      (l.map Prod.fst).Pairwise (fun a b => a < b) →
      (acc.map Prod.fst).Pairwise (fun a b => a < b) →
      (∀ p ∈ acc, ∀ q ∈ l, p.1 < q.1) →
      generate_complaints_go ops associated_data receiver_index secret_key public_key
        seed acc l = .ok res →
      ((res.map Prod.fst).Pairwise (fun a b => a < b) ∧
       ∀ d c, (d, c) ∈ res ↔ ((d, c) ∈ acc ∨
         ∃ dealing, (d, dealing) ∈ l ∧
           (∃ e, ops.decrypt_and_check dealing.ciphertext dealing.commitment
             associated_data d receiver_index secret_key public_key = .error e) ∧
           IDkgComplaintInternal.new ops (seed.derive (complaintSeedLabel d)) dealing d
             receiver_index secret_key public_key associated_data = .ok c)) := by
  intro l
  induction l with
  | nil =>
    intro acc res _ hpacc _ hgo
    unfold generate_complaints_go at hgo
    injection hgo with hgo
    subst hgo
    refine ⟨hpacc, fun d c => ?_⟩
    simp
  | cons hd rest ih =>
    obtain ⟨di, dealing⟩ := hd
    intro acc res hpl hpacc hlt hgo
    rw [List.map_cons, List.pairwise_cons] at hpl
    obtain ⟨hd_lt, hpl'⟩ := hpl
    unfold generate_complaints_go at hgo
    split at hgo
    · rename_i op heq
      obtain ⟨hres, hiff⟩ := ih acc res hpl' hpacc
        (fun p hp q hq => hlt p hp q (by simp [hq])) hgo
      refine ⟨hres, fun d c => ?_⟩
      rw [hiff d c]
      constructor
      · rintro (hacc | ⟨dl, hmem, hfail, hnew⟩)
        · exact .inl hacc
        · exact .inr ⟨dl, by simp [hmem], hfail, hnew⟩
      · rintro (hacc | ⟨dl, hmem, hfail, hnew⟩)
        · exact .inl hacc
        · rcases List.mem_cons.mp hmem with hhd | htl
          · obtain ⟨he, hdl⟩ := Prod.mk.injEq .. ▸ hhd
            subst he
            subst hdl
            obtain ⟨e, he⟩ := hfail
            rw [heq] at he
            exact Except.noConfusion he
          · exact .inr ⟨dl, htl, hfail, hnew⟩
    · rename_i e0 heq
      split at hgo
      · exact Except.noConfusion hgo
      · rename_i complaint heq2
        have hacc_lt : ∀ p ∈ acc, p.1 < di := fun p hp => hlt p hp (di, dealing) (by simp)
        rw [btreeInsert_append di complaint acc hacc_lt] at hgo
        have hpacc' : (((acc ++ [(di, complaint)]).map Prod.fst)).Pairwise
            (fun a b => a < b) := by
          rw [List.map_append, List.pairwise_append]
          refine ⟨hpacc, by simp, ?_⟩
          intro a ha b hb
          simp only [List.map_cons, List.map_nil, List.mem_singleton] at hb
          subst hb
          obtain ⟨p, hp, hpa⟩ := List.mem_map.mp ha
          exact hpa ▸ hacc_lt p hp
        have hlt' : ∀ p ∈ acc ++ [(di, complaint)], ∀ q ∈ rest, p.1 < q.1 := by
          intro p hp q hq
          rcases List.mem_append.mp hp with hp | hp
          · exact hlt p hp q (by simp [hq])
          · simp only [List.mem_singleton] at hp
            subst hp
            exact hd_lt q.1 (List.mem_map.mpr ⟨q, hq, rfl⟩)
        obtain ⟨hres, hiff⟩ := ih (acc ++ [(di, complaint)]) res hpl' hpacc' hlt' hgo
        refine ⟨hres, fun d c => ?_⟩
        rw [hiff d c]
        constructor
        · rintro (hacc | ⟨dl, hmem, hfail, hnew⟩)
          · rcases List.mem_append.mp hacc with h | h
            · exact .inl h
            · simp only [List.mem_singleton] at h
              obtain ⟨he, hc⟩ := Prod.mk.injEq .. ▸ h
              subst he
              subst hc
              exact .inr ⟨dealing, by simp, ⟨e0, heq⟩, heq2⟩
          · exact .inr ⟨dl, by simp [hmem], hfail, hnew⟩
        · rintro (hacc | ⟨dl, hmem, hfail, hnew⟩)
          · exact .inl (List.mem_append.mpr (.inl hacc))
          · rcases List.mem_cons.mp hmem with hhd | htl
            · obtain ⟨he, hdl⟩ := Prod.mk.injEq .. ▸ hhd
              subst he
              subst hdl
              rw [heq2] at hnew
              injection hnew with hnew
              subst hnew
              exact .inl (List.mem_append.mpr (.inr (by simp)))
            · exact .inr ⟨dl, htl, hfail, hnew⟩

/-- Claim C2: on success, `generate_complaints` returns a mapping whose keys
are exactly the dealer indices whose dealing failed `decrypt_and_check`
(dealers whose dealing opens successfully are absent), in ascending dealer
index, and each entry is the complaint built by `IDkgComplaintInternal::new`
under the child seed derived with the label
"ic-crypto-tecdsa-complaint-against-" followed by the dealer index. -/
theorem claim_C2_complaints_exactly_failures (ops : ExternalOps)
    (verified_dealings : List (NodeIndex × IDkgDealingInternal))
    (associated_data : List Nat) (receiver_index : NodeIndex)
    (secret_key : MEGaPrivateKey) (public_key : MEGaPublicKey) (seed : Seed)
    (res : List (NodeIndex × IDkgComplaintInternal))
    (hsorted : (verified_dealings.map Prod.fst).Pairwise (fun a b => a < b))
    (hok : generate_complaints ops verified_dealings associated_data receiver_index
      secret_key public_key seed = .ok res) :
    (res.map Prod.fst).Pairwise (fun a b => a < b) ∧
    ∀ d c, (d, c) ∈ res ↔
      ∃ dealing, (d, dealing) ∈ verified_dealings ∧
        (∃ e, ops.decrypt_and_check dealing.ciphertext dealing.commitment
          associated_data d receiver_index secret_key public_key = .error e) ∧
        IDkgComplaintInternal.new ops (seed.derive (complaintSeedLabel d)) dealing d
          receiver_index secret_key public_key associated_data = .ok c := by
  unfold generate_complaints at hok
  split at hok
  · exact Except.noConfusion hok
  · rename_i complaints heq
    split at hok
    · exact Except.noConfusion hok
    · injection hok with hok
      subst hok
      obtain ⟨hres, hiff⟩ := generate_complaints_go_spec ops associated_data
        receiver_index secret_key public_key seed verified_dealings [] complaints
        hsorted (by simp) (by simp) heq
      refine ⟨hres, fun d c => ?_⟩
      rw [hiff d c]
      simp

/-- Concrete instantiation of claim C2: the complaint mapping for a
one-dealer failing round has its keys in ascending order. -/
theorem claim_C2_witness :
    List.Pairwise (fun a b => a < b)
      (([(0, sampleComplaint)] : List (NodeIndex × IDkgComplaintInternal)).map
        Prod.fst) :=
  (claim_C2_complaints_exactly_failures opsBase [(0, dealingSS)] [] 2 sampleSk
    samplePk seed0 [(0, sampleComplaint)] (by simp) rfl).1

theorem generate_complaints_go_all_ok (ops : ExternalOps) (associated_data : List Nat)
    (receiver_index : NodeIndex) (secret_key : MEGaPrivateKey)
    (public_key : MEGaPublicKey) (seed : Seed) :
    ∀ (l : List (NodeIndex × IDkgDealingInternal))
      (acc : List (NodeIndex × IDkgComplaintInternal)),
      (∀ d dealing, (d, dealing) ∈ l → ∃ op,
        ops.decrypt_and_check dealing.ciphertext dealing.commitment associated_data d
          receiver_index secret_key public_key = .ok op) →
      generate_complaints_go ops associated_data receiver_index secret_key public_key
        seed acc l = .ok acc := by
  intro l
  induction l with
  | nil => intro acc _; rfl
  | cons hd rest ih =>
    obtain ⟨di, dealing⟩ := hd
    intro acc h
    obtain ⟨op, hop⟩ := h di dealing (by simp)
    unfold generate_complaints_go
    rw [hop]
    exact ih acc (fun d dl hm => h d dl (by simp [hm]))

/-- Claim C3: a successful result of `generate_complaints` is always a
non-empty mapping, and for every set of dealings (including the empty set) in
which no dealing fails `decrypt_and_check`, `generate_complaints` returns the
invalid-arguments error rather than an empty mapping. -/
theorem claim_C3_success_is_nonempty :
    (∀ (ops : ExternalOps) (verified_dealings : List (NodeIndex × IDkgDealingInternal))
        (associated_data : List Nat) (receiver_index : NodeIndex)
        (secret_key : MEGaPrivateKey) (public_key : MEGaPublicKey) (seed : Seed)
        (res : List (NodeIndex × IDkgComplaintInternal)),
      generate_complaints ops verified_dealings associated_data receiver_index
        secret_key public_key seed = .ok res → res ≠ []) ∧
    (∀ (ops : ExternalOps) (verified_dealings : List (NodeIndex × IDkgDealingInternal))
        (associated_data : List Nat) (receiver_index : NodeIndex)
        (secret_key : MEGaPrivateKey) (public_key : MEGaPublicKey) (seed : Seed),
      (∀ d dealing, (d, dealing) ∈ verified_dealings → ∃ op,
        ops.decrypt_and_check dealing.ciphertext dealing.commitment associated_data d
          receiver_index secret_key public_key = .ok op) →
      generate_complaints ops verified_dealings associated_data receiver_index
        secret_key public_key seed =
        .error (ThresholdEcdsaError.InvalidArguments
          "generate_complaints should return at least one complaint")) := by
  constructor
  · intro ops vd ad ri sk pk seed res h
    unfold generate_complaints at h
    split at h
    · exact Except.noConfusion h
    · rename_i complaints heq
      split at h
      · exact Except.noConfusion h
      · rename_i hne
        injection h with h
        subst h
        intro hnil
        subst hnil
        simp at hne
  · intro ops vd ad ri sk pk seed h
    have hgo := generate_complaints_go_all_ok ops ad ri sk pk seed vd [] h
    unfold generate_complaints
    rw [hgo]
    rfl

/-- Concrete instantiation of claim C3: one dealer whose dealing opens
successfully yields the invalid-arguments error. -/
theorem claim_C3_witness :
    generate_complaints opsDecryptOk [(0, dealingSS)] [] 2 sampleSk samplePk seed0 =
      .error (ThresholdEcdsaError.InvalidArguments
        "generate_complaints should return at least one complaint") :=
  claim_C3_success_is_nonempty.2 opsDecryptOk [(0, dealingSS)] [] 2 sampleSk
    samplePk seed0 (fun _ _ _ => ⟨CommitmentOpening.Simple openingV, rfl⟩)

theorem generate_complaints_go_new_error (ops : ExternalOps)
    (associated_data : List Nat) (receiver_index : NodeIndex)
    (secret_key : MEGaPrivateKey) (public_key : MEGaPublicKey) (seed : Seed)
    (di : NodeIndex) (dealing : IDkgDealingInternal)
    (l2 : List (NodeIndex × IDkgDealingInternal)) (e : ThresholdEcdsaError)
    (hfail : ∃ e0, ops.decrypt_and_check dealing.ciphertext dealing.commitment
      associated_data di receiver_index secret_key public_key = .error e0)
    (hnew : IDkgComplaintInternal.new ops (seed.derive (complaintSeedLabel di))
      dealing di receiver_index secret_key public_key associated_data = .error e) :
    ∀ (l1 : List (NodeIndex × IDkgDealingInternal))
      (acc : List (NodeIndex × IDkgComplaintInternal)),
      (∀ d dl, (d, dl) ∈ l1 → ∀ e1,
        ops.decrypt_and_check dl.ciphertext dl.commitment associated_data d
          receiver_index secret_key public_key = .error e1 →
        ∃ c, IDkgComplaintInternal.new ops (seed.derive (complaintSeedLabel d)) dl d
          receiver_index secret_key public_key associated_data = .ok c) →
      generate_complaints_go ops associated_data receiver_index secret_key public_key
        seed acc (l1 ++ (di, dealing) :: l2) = .error e := by
  intro l1
  induction l1 with
  | nil =>
    intro acc _
    obtain ⟨e0, h0⟩ := hfail
    rw [List.nil_append]
    unfold generate_complaints_go
    rw [h0]
    simp only
    rw [hnew]
  | cons hd l1' ih =>
    obtain ⟨d, dl⟩ := hd
    intro acc h
    rw [List.cons_append]
    unfold generate_complaints_go
    cases hdc : ops.decrypt_and_check dl.ciphertext dl.commitment associated_data d
        receiver_index secret_key public_key with
    | ok op =>
      exact ih acc (fun a b hm => h a b (by simp [hm]))
    | error e1 =>
      obtain ⟨c, hc⟩ := h d dl (by simp) e1 hdc
      rw [hc]
      exact ih (btreeInsert d c acc) (fun a b hm => h a b (by simp [hm]))

/-- Claim C9: if, for some dealing that failed `decrypt_and_check`,
`IDkgComplaintInternal::new` returns an error, `generate_complaints` returns
that error for the whole call: complaints already constructed for
earlier-iterated dealers are discarded and no partial mapping is returned. -/
theorem claim_C9_new_error_aborts (ops : ExternalOps) (associated_data : List Nat)
    (receiver_index : NodeIndex) (secret_key : MEGaPrivateKey)
    (public_key : MEGaPublicKey) (seed : Seed)
    (l1 l2 : List (NodeIndex × IDkgDealingInternal)) (di : NodeIndex)
    (dealing : IDkgDealingInternal) (e : ThresholdEcdsaError)
    (hprev : ∀ d dl, (d, dl) ∈ l1 → ∀ e1,
      ops.decrypt_and_check dl.ciphertext dl.commitment associated_data d
        receiver_index secret_key public_key = .error e1 →
      ∃ c, IDkgComplaintInternal.new ops (seed.derive (complaintSeedLabel d)) dl d
        receiver_index secret_key public_key associated_data = .ok c)
    (hfail : ∃ e0, ops.decrypt_and_check dealing.ciphertext dealing.commitment
      associated_data di receiver_index secret_key public_key = .error e0)
    (hnew : IDkgComplaintInternal.new ops (seed.derive (complaintSeedLabel di))
      dealing di receiver_index secret_key public_key associated_data = .error e) :
    generate_complaints ops (l1 ++ (di, dealing) :: l2) associated_data
      receiver_index secret_key public_key seed = .error e := by
  unfold generate_complaints
  rw [generate_complaints_go_new_error ops associated_data receiver_index secret_key
    public_key seed di dealing l2 e hfail hnew l1 [] hprev]

/-- Concrete instantiation of claim C9: a receiver key on the wrong curve
makes complaint construction fail, and `generate_complaints` surfaces that
error. -/
theorem claim_C9_witness :
    generate_complaints opsBase [(1, dealingSS)] [] 2 sampleSkP256 samplePk seed0 =
      .error ThresholdEcdsaError.CurveMismatchError :=
  claim_C9_new_error_aborts opsBase [] 2 sampleSkP256 samplePk seed0 [] [] 1
    dealingSS ThresholdEcdsaError.CurveMismatchError
    (fun _ _ hm => absurd hm (List.not_mem_nil _))
    ⟨ThresholdEcdsaError.InvalidComplaint, rfl⟩ rfl
